import Mathlib

/-!
Verification of the audit-event rate-limited logger
(src/app/api/logging/audit.py) against its specification.

The Python module registers an audit hook `handle_audit_event` that filters
events through a fixed allow-list `EVENTS_TO_LOG`, counts occurrences per
`(event_name, repr(args))` key in a bounded LRU dictionary, throttles
repeated occurrences, and emits structured log records at a custom `AUDIT`
severity level.

We embed the module shallowly: Python values that appear as audit-event
arguments become the inductive type `PyVal`; the mutable module-level
`audit_message_count` dictionary becomes explicitly threaded state of type
`LruState`; the logging sink is modelled both as a pure record emission
(`log_audit_event` returns the optional emitted record) and, for reasoning
about sink failure, as an `Except`-valued callback (`log_audit_event_io`).
-/

/-- Python values that occur as positional arguments of the audited events
we reason about: strings, integers and `None`. -/
inductive PyVal where
  | str : String → PyVal
  | int : Int → PyVal
  | none : PyVal
deriving DecidableEq

/-- Python `repr` of a `PyVal`. Strings are rendered between single quote
characters (written via the escape \x27; we only consider strings that do not
themselves contain quotes or escapes, which matches every argument used in
the repository's tests). -/
def pyRepr : PyVal → String
  | PyVal.str s => "\x27" ++ s ++ "\x27"
  | PyVal.int n => toString n
  | PyVal.none => "None"

/-- Python `repr` of a tuple of values, as computed by `repr(args)` at
src/app/api/logging/audit.py line 80: parenthesised, comma-separated, with
the trailing comma of a one-element tuple. -/
def reprTuple (args : List PyVal) : String :=
  match args with
  | [] => "()"
  | [a] => "(" ++ pyRepr a ++ ",)"
  | _ => "(" ++ String.intercalate ", " (args.map pyRepr) ++ ")"

/-- Python standard library severity `logging.INFO`. -/
def logging_INFO : Nat := 20

/-- Python standard library severity `logging.WARNING`. -/
def logging_WARNING : Nat := 30

/-- Python standard library severity `logging.ERROR`. -/
def logging_ERROR : Nat := 40

/-- The custom audit severity level, `AUDIT = 32` at
src/app/api/logging/audit.py line 17.  (Line 18 of the source is the bare
expression statement `logging.INFO`, a no-op.) -/
def AUDIT : Nat := 32

/-- The level name registered by `logging.addLevelName(AUDIT, "AUDIT")` at
src/app/api/logging/audit.py line 19. -/
def AUDIT_level_name : String := "AUDIT"

/-- A structured log record as handed to `logger.log(AUDIT, event_name,
extra=extra)`: severity level, message (the event name), and the `extra`
mapping, kept as an association list in insertion order. -/
structure LogRecord where
  level : Nat
  msg : String
  extra : List (String × PyVal)
deriving DecidableEq

/-- The allow-list of recognized events and the argument labels to log for
each, from the local `EVENTS_TO_LOG` dictionary in `handle_audit_event`
(src/app/api/logging/audit.py lines 33-56). -/
def EVENTS_TO_LOG : List (String × List String) :=
  [("exec", ["code_object"]),
   ("open", ["path", "mode", "flags"]),
   ("os.kill", ["pid", "sig"]),
   ("os.rename", ["src", "dst", "src_dir_fd", "dst_dir_fd"]),
   ("subprocess.Popen", ["executable", "args", "cwd", "_"]),
   ("socket.connect", ["socket", "address"]),
   ("socket.getaddrinfo", ["host", "port", "family", "type", "protocol"]),
   ("sys.addaudithook", []),
   ("urllib.Request", ["url", "_", "_", "method"])]

/-- The filtered argument entries of the `extra` dictionary built at
src/app/api/logging/audit.py lines 76-78: one entry
`("audit.args." ++ label, value)` per `zip`-paired position whose label is
not the ignore marker. `zip` truncates to the shorter of the two lists. -/
def extraFor (arg_names : List String) (args : List PyVal) : List (String × PyVal) :=
  ((arg_names.zip args).filter (fun p => p.1 != "_")).map
    (fun p => ("audit.args." ++ p.1, p.2))

/-- State of the occurrence-counter cache `audit_message_count`: an
association list from event key to count, most-recently-used first. -/
abbrev LruState := List ((String × String) × Nat)

/-- Membership/lookup of a key in the cache, as used by the `in` test and
subscript read at src/app/api/logging/audit.py lines 81-84. -/
def lruLookup (st : LruState) (key : String × String) : Option Nat :=
  st.lookup key

/-- Modelled from the spec: the repository imports
`api.util.collections.LeastRecentlyUsedDict` whose source file is not under
src/.  Per spec section 4.2 and the design note in section 9, a store marks
the key most-recently-used and, when the insert pushes the number of
distinct keys past the capacity, evicts the least-recently-used key. -/
def lruSet (cap : Nat) (st : LruState) (key : String × String) (v : Nat) : LruState :=
  let st' := (key, v) :: st.filter (fun p => p.1 != key)
  if cap < st'.length then st'.dropLast else st'

/-- The occurrence count computed at src/app/api/logging/audit.py
lines 81-84: 1 for a fresh key, one more than the stored count otherwise. -/
def nextCount (st : LruState) (key : String × String) : Nat :=
  match lruLookup st key with
  | Option.none => 1
  | Option.some c => c + 1

/-- The two early-return suppression conditions of `log_audit_event`
(src/app/api/logging/audit.py lines 87-91): return without logging when
`count > 100 and count % 100 != 0`, or when `count > 10 and count % 10 != 0`. -/
def throttle_suppresses (count : Nat) : Bool :=
  (decide (100 < count) && decide (count % 100 ≠ 0))
    || (decide (10 < count) && decide (count % 10 ≠ 0))

/-- Shallow embedding of `log_audit_event` (src/app/api/logging/audit.py
lines 74-95), threading the `audit_message_count` state explicitly and
returning the emitted record, if any, instead of calling `logger.log`. -/
def log_audit_event (cap : Nat) (st : LruState) (event_name : String)
    (args : List PyVal) (arg_names : List String) : LruState × Option LogRecord :=
  let extra := extraFor arg_names args
  let key := (event_name, reprTuple args)
  let count := nextCount st key
  let st' := lruSet cap st key count
  if throttle_suppresses count then
    (st', Option.none)
  else
    (st', Option.some { level := AUDIT, msg := event_name,
                        extra := extra ++ [("count", PyVal.int (Int.ofNat count))] })

/-- Shallow embedding of the dispatcher `handle_audit_event`
(src/app/api/logging/audit.py lines 28-62): return unchanged state and no
record for an unrecognized event name, otherwise delegate to
`log_audit_event` with the table's argument labels. -/
def handle_audit_event (cap : Nat) (st : LruState) (event_name : String)
    (args : List PyVal) : LruState × Option LogRecord :=
  match EVENTS_TO_LOG.lookup event_name with
  | Option.none => (st, Option.none)
  | Option.some arg_names => log_audit_event cap st event_name args arg_names

/-- Embedding of `log_audit_event` that calls an explicit, possibly failing
logging sink.  The Python source contains no try/except, so a sink failure
propagates out of the function unchanged. -/
def log_audit_event_io (sink : LogRecord → Except String Unit) (cap : Nat)
    (st : LruState) (event_name : String) (args : List PyVal)
    (arg_names : List String) : Except String LruState :=
  let extra := extraFor arg_names args
  let key := (event_name, reprTuple args)
  let count := nextCount st key
  let st' := lruSet cap st key count
  if throttle_suppresses count then
    Except.ok st'
  else
    match sink { level := AUDIT, msg := event_name,
                 extra := extra ++ [("count", PyVal.int (Int.ofNat count))] } with
    | Except.ok _ => Except.ok st'
    | Except.error e => Except.error e

/-- Embedding of the dispatcher entry point with an explicit sink; like the
Python source, it installs no exception handler around `log_audit_event`. -/
def handle_audit_event_io (sink : LogRecord → Except String Unit) (cap : Nat)
    (st : LruState) (event_name : String) (args : List PyVal) :
    Except String LruState :=
  match EVENTS_TO_LOG.lookup event_name with
  | Option.none => Except.ok st
  | Option.some arg_names => log_audit_event_io sink cap st event_name args arg_names

/-- A sink that always fails, for exercising the error-propagation path. -/
def failingSink : LogRecord → Except String Unit :=
  fun _ => Except.error "sink failure"

/-- Dispatch the same event `n` times in sequence from the empty cache,
collecting the emitted records in order. -/
def runSeq (cap : Nat) (event_name : String) (args : List PyVal) :
    Nat → LruState × List LogRecord
  | 0 => ([], [])
  | Nat.succ n =>
    let prev := runSeq cap event_name args n
    let step := handle_audit_event cap prev.1 event_name args
    (step.1, prev.2 ++ (match step.2 with
                        | Option.none => []
                        | Option.some r => [r]))

/-- The value of the "count" entry of an optionally emitted record. -/
def recCount : Option LogRecord → Option Nat
  | Option.none => Option.none
  | Option.some r =>
    match r.extra.lookup "count" with
    | Option.some (PyVal.int (Int.ofNat c)) => Option.some c
    | _ => Option.none

/-- The counts attached to a list of emitted records, in emission order. -/
def countsOf (recs : List LogRecord) : List Nat :=
  recs.filterMap (fun r => recCount (Option.some r))

/-- The counts emitted by `n` sequential dispatches of one event. -/
def seqCounts (cap : Nat) (event_name : String) (args : List PyVal) (n : Nat) : List Nat :=
  countsOf (runSeq cap event_name args n).2

/-- The argument tuple of the concrete `open` scenario: ("/etc/passwd", "r", None). -/
def open_demo_args : List PyVal :=
  [PyVal.str "/etc/passwd", PyVal.str "r", PyVal.none]

/-- The extra mapping of the record emitted for the `open` demo scenario
dispatched on a fresh cache. -/
def open_demo_extra : List (String × PyVal) :=
  match (handle_audit_event 500 [] "open" open_demo_args).2 with
  | Option.some r => r.extra
  | Option.none => []

/-- Zipping truncates to the shorter list: pairing label names with
arguments only consumes the first `args.length` labels. -/
theorem zip_names_truncates :
    ∀ (names : List String) (args : List PyVal),
      names.zip args = (names.take args.length).zip args := by
  intro names
  induction names with
  | nil => intro args; simp
  | cons n ns ih =>
    intro args
    cases args with
    | nil => simp
    | cons a as => simp [ih as]

/-- Zipping also truncates on the right: pairing consumes only the first
`names.length` arguments, so trailing surplus arguments are dropped. -/
theorem zip_args_truncates :
    ∀ (names : List String) (args : List PyVal),
      names.zip args = names.zip (args.take names.length) := by
  intro names
  induction names with
  | nil => intro args; simp
  | cons n ns ih =>
    intro args
    cases args with
    | nil => simp
    | cons a as => simp [ih as]

/-- Looking up "count" in the extra mapping finds the appended count entry:
every argument entry key carries the "audit.args." prefix of length 11 and
so differs from "count". -/
theorem count_entry_lookup (labels : List String) (args : List PyVal) (v : PyVal) :
    (extraFor labels args ++ [("count", v)]).lookup "count" = Option.some v := by
  rw [List.lookup_append]
  have hnone : (extraFor labels args).lookup "count" = Option.none := by
    rw [List.lookup_eq_none_iff]
    intro p hp
    simp only [extraFor, List.mem_map, List.mem_filter] at hp
    obtain ⟨q, _hq, hqe⟩ := hp
    rw [← hqe]
    simp only [bne_iff_ne, ne_eq]
    intro hc
    have hlen := congrArg String.length hc
    rw [String.length_append] at hlen
    have h11 : ("audit.args." : String).length = 11 := rfl
    have h5 : ("count" : String).length = 5 := rfl
    omega
  rw [hnone]
  rfl

/-- The count read back from an emitted record is the count that was
attached. -/
theorem recCount_emitted (lvl : Nat) (msg : String) (labels : List String)
    (args : List PyVal) (c : Nat) :
    recCount (Option.some ⟨lvl, msg,
        extraFor labels args ++ [("count", PyVal.int (Int.ofNat c))]⟩)
      = Option.some c := by
  simp [recCount, count_entry_lookup]

/-- Unfolding of the dispatcher on a recognized event: the cache is touched
with the next count for the event key, and a record carrying that count is
emitted unless the throttle suppresses it. -/
theorem handle_recognized (cap : Nat) (st : LruState) (event_name : String)
    (labels : List String) (args : List PyVal)
    (hrec : EVENTS_TO_LOG.lookup event_name = Option.some labels) :
    handle_audit_event cap st event_name args =
      (lruSet cap st (event_name, reprTuple args)
         (nextCount st (event_name, reprTuple args)),
       if throttle_suppresses (nextCount st (event_name, reprTuple args)) = true
       then Option.none
       else Option.some ⟨AUDIT, event_name,
         extraFor labels args
           ++ [("count",
                PyVal.int (Int.ofNat (nextCount st (event_name, reprTuple args))))]⟩) := by
  unfold handle_audit_event
  rw [hrec]
  unfold log_audit_event
  by_cases ht :
      throttle_suppresses (nextCount st (event_name, reprTuple args)) = true
  · simp [ht]
  · simp [ht]

/-- A fresh key has next count 1. -/
theorem nextCount_nil (key : String × String) : nextCount [] key = 1 := rfl

/-- A key stored with count c has next count c + 1. -/
theorem nextCount_single_hit (key : String × String) (c : Nat) :
    nextCount [(key, c)] key = c + 1 := by
  simp [nextCount, lruLookup]

/-- A key different from the single stored key has next count 1. -/
theorem nextCount_single_miss (key key' : String × String) (c : Nat)
    (h : key' ≠ key) : nextCount [(key, c)] key' = 1 := by
  have hb : (key' == key) = false := beq_eq_false_iff_ne.mpr h
  simp [nextCount, lruLookup, List.lookup_cons, hb]

/-- Storing into the empty cache with positive capacity keeps the entry. -/
theorem lruSet_nil (cap : Nat) (hcap : 1 ≤ cap) (key : String × String)
    (v : Nat) : lruSet cap [] key v = [(key, v)] := by
  have hlt : ¬ (cap < 1) := by omega
  simp [lruSet, hlt]

/-- Overwriting the single stored key keeps a single entry with the new
count. -/
theorem lruSet_single_same (cap : Nat) (hcap : 1 ≤ cap)
    (key : String × String) (v w : Nat) :
    lruSet cap [(key, v)] key w = [(key, w)] := by
  have hlt : ¬ (cap < 1) := by omega
  simp [lruSet, hlt]

/-- Dispatching a recognized event on a cache holding one key with count 1
emits a record whose count is 2 when the event key matches the stored key
and 1 otherwise. -/
theorem handle_after_one (cap : Nat) (n2 : String) (l2 : List String)
    (a2 : List PyVal) (key1 : String × String)
    (h2 : EVENTS_TO_LOG.lookup n2 = Option.some l2) :
    recCount (handle_audit_event cap [(key1, 1)] n2 a2).2 =
      Option.some (if (n2, reprTuple a2) = key1 then 2 else 1) := by
  rw [handle_recognized cap [(key1, 1)] n2 l2 a2 h2]
  by_cases hk : (n2, reprTuple a2) = key1
  · rw [hk]
    simp only [nextCount_single_hit]
    have hthr : throttle_suppresses (1 + 1) = false := by decide
    simp only [hthr, Bool.false_eq_true, if_false, if_pos rfl]
    simp only [recCount, count_entry_lookup]
    simp
  · have hmiss : nextCount [(key1, 1)] (n2, reprTuple a2) = 1 :=
      nextCount_single_miss _ _ _ hk
    rw [hmiss]
    have hthr : throttle_suppresses 1 = false := by decide
    simp only [hthr, Bool.false_eq_true, if_false, if_neg hk]
    simp only [recCount, count_entry_lookup]

/-- With a sink that succeeds on every record, the instrumented dispatcher
returns the state of the pure embedding. -/
theorem handle_io_ok_of_sink_ok (sink : LogRecord → Except String Unit)
    (hsink : ∀ r, sink r = Except.ok ()) (cap : Nat) (st : LruState)
    (event_name : String) (args : List PyVal) :
    handle_audit_event_io sink cap st event_name args =
      Except.ok (handle_audit_event cap st event_name args).1 := by
  unfold handle_audit_event_io handle_audit_event
  cases h : EVENTS_TO_LOG.lookup event_name with
  | none => rfl
  | some arg_names =>
    simp only [log_audit_event_io, log_audit_event]
    by_cases ht :
        throttle_suppresses (nextCount st (event_name, reprTuple args)) = true
    · simp [ht]
    · simp [ht, hsink]

/-- The two suppression conditions let a count through iff it is at
most 10, or at most 100 and a multiple of 10, or a multiple of 100. -/
theorem throttle_suppresses_false_iff (count : Nat) (h : 1 ≤ count) :
    throttle_suppresses count = false ↔
      (1 ≤ count ∧ count ≤ 10)
      ∨ (11 ≤ count ∧ count ≤ 100 ∧ count % 10 = 0)
      ∨ (100 < count ∧ count % 100 = 0) := by
  simp only [throttle_suppresses, Bool.or_eq_false_iff, Bool.and_eq_false_iff,
    decide_eq_false_iff_not, not_lt, ne_eq, Decidable.not_not]
  omega

/-- C1: the throttle policy is a pure function of the occurrence count: a
record survives the two early returns of `log_audit_event` (equivalently,
`throttle_suppresses count = false`) iff the count is between 1 and 10, or
between 11 and 100 and a multiple of 10, or above 100 and a multiple
of 100. -/
theorem throttle_policy_characterization (count : Nat) (h : 1 ≤ count) :
    throttle_suppresses count = false ↔
      (1 ≤ count ∧ count ≤ 10)
      ∨ (11 ≤ count ∧ count ≤ 100 ∧ count % 10 = 0)
      ∨ (100 < count ∧ count % 100 = 0) :=
  throttle_suppresses_false_iff count h

/-- Concrete instance of the throttle characterization at count 250. -/
theorem throttle_policy_characterization_witness :
    1 ≤ 250 ∧
      (throttle_suppresses 250 = false ↔
        (1 ≤ 250 ∧ 250 ≤ 10)
        ∨ (11 ≤ 250 ∧ 250 ≤ 100 ∧ 250 % 10 = 0)
        ∨ (100 < 250 ∧ 250 % 100 = 0)) :=
  ⟨by decide, throttle_policy_characterization 250 (by decide)⟩

/-- C5 counterexample: the AUDIT level (32) is not strictly between the
INFO-equivalent severity (20) and the WARNING-equivalent severity (30). -/
theorem audit_level_not_between_info_and_warning :
    ¬ (logging_INFO < AUDIT ∧ AUDIT < logging_WARNING) := by
  decide

/-- C5 amended: the AUDIT level is a custom severity distinct from the
standard INFO, WARNING and ERROR levels, positioned numerically strictly
between the WARNING-equivalent and ERROR-equivalent severities, and
labelled "AUDIT". -/
theorem audit_level_between_warning_and_error :
    AUDIT ≠ logging_INFO ∧ AUDIT ≠ logging_WARNING ∧ AUDIT ≠ logging_ERROR
      ∧ logging_WARNING < AUDIT ∧ AUDIT < logging_ERROR
      ∧ AUDIT_level_name = "AUDIT" := by
  refine ⟨by decide, by decide, by decide, by decide, by decide, rfl⟩

/-- C4 counterexample: in the record emitted for the `open` event with
arguments ("/etc/passwd", "r", None) on a fresh cache, the claimed keys
"arg.path" and "arg.mode" are absent (the code prefixes labels with
"audit.args." instead), and the third positional argument is not ignored:
it appears under the key "audit.args.flags" with value None. -/
theorem open_demo_extra_refutes_claim :
    open_demo_extra.lookup "arg.path" = Option.none
    ∧ open_demo_extra.lookup "arg.mode" = Option.none
    ∧ open_demo_extra.lookup "audit.args.flags" = Option.some PyVal.none := by
  refine ⟨by rfl, by rfl, by rfl⟩

/-- C4 amended: dispatching `open` with ("/etc/passwd", "r", None) as a
fresh key emits a record whose extra mapping is exactly
audit.args.path = "/etc/passwd", audit.args.mode = "r",
audit.args.flags = None and count = 1: the keys carry the "audit.args."
prefix used by the source, and the third positional argument is included
with its None value rather than omitted. -/
theorem open_demo_record :
    (handle_audit_event 500 [] "open" open_demo_args).2 =
      Option.some ⟨AUDIT, "open",
        [("audit.args.path", PyVal.str "/etc/passwd"),
         ("audit.args.mode", PyVal.str "r"),
         ("audit.args.flags", PyVal.none),
         ("count", PyVal.int 1)]⟩ := by
  rfl

/-- C7: dispatching an event whose name is absent from the allow-list
produces no log record and leaves the occurrence-counter state unchanged. -/
theorem unrecognized_event_silent (cap : Nat) (st : LruState)
    (event_name : String) (args : List PyVal)
    (h : EVENTS_TO_LOG.lookup event_name = Option.none) :
    handle_audit_event cap st event_name args = (st, Option.none) := by
  simp [handle_audit_event, h]

/-- Concrete instance: the event name "os.chmod" is not in the allow-list,
and dispatching it changes nothing and emits nothing. -/
theorem unrecognized_event_silent_witness :
    EVENTS_TO_LOG.lookup "os.chmod" = Option.none
    ∧ handle_audit_event 500 [] "os.chmod" [PyVal.str "/tmp/x"] = ([], Option.none) :=
  ⟨by rfl, unrecognized_event_silent 500 [] "os.chmod" [PyVal.str "/tmp/x"] (by rfl)⟩

/-- C3 counterexample: the dispatcher contains no exception handler, so a
sink that always fails propagates its failure to the caller: dispatching a
recognized event with such a sink returns the sink's error. -/
theorem sink_failure_propagates :
    handle_audit_event_io failingSink 500 [] "open"
        [PyVal.str "/etc/passwd", PyVal.str "r"]
      = Except.error "sink failure" := by
  rfl

/-- C3 amended: the dispatcher itself never fails — for every event name
and argument tuple, if the logging sink succeeds on every record then the
dispatcher call succeeds, returning the same state as the pure embedding;
but nothing inside the dispatcher catches a sink failure. -/
theorem dispatcher_ok_when_sink_ok (sink : LogRecord → Except String Unit)
    (hsink : ∀ r, sink r = Except.ok ()) (cap : Nat) (st : LruState)
    (event_name : String) (args : List PyVal) :
    handle_audit_event_io sink cap st event_name args =
      Except.ok (handle_audit_event cap st event_name args).1 :=
  handle_io_ok_of_sink_ok sink hsink cap st event_name args

/-- Concrete instance: with a sink that always succeeds, dispatching `open`
with one argument succeeds. -/
theorem dispatcher_ok_when_sink_ok_witness :
    (∀ r : LogRecord,
        (fun _ : LogRecord => (Except.ok () : Except String Unit)) r = Except.ok ())
    ∧ handle_audit_event_io (fun _ => (Except.ok () : Except String Unit)) 500 []
        "open" [PyVal.str "/etc/passwd"]
      = Except.ok (handle_audit_event 500 [] "open" [PyVal.str "/etc/passwd"]).1 :=
  ⟨fun _ => rfl,
   dispatcher_ok_when_sink_ok (fun _ => (Except.ok () : Except String Unit))
     (fun _ => rfl) 500 [] "open" [PyVal.str "/etc/passwd"]⟩

/-- C6: a value supplied only at argument positions whose label is the
ignore marker never appears in the extra mapping of any emitted record:
the filter at src/app/api/logging/audit.py line 77 drops every zipped pair
whose label is the underscore marker. -/
theorem ignored_positions_never_logged (arg_names : List String)
    (args : List PyVal) (v : PyVal) (k : String)
    (hv : ∀ p ∈ arg_names.zip args, p.2 = v → p.1 = "_") :
    (k, v) ∉ extraFor arg_names args := by
  intro hk
  simp only [extraFor, List.mem_map, List.mem_filter] at hk
  obtain ⟨p, ⟨hpz, hpne⟩, hpe⟩ := hk
  have h2 : p.2 = v := congrArg Prod.snd hpe
  have h1 := hv p hpz h2
  simp [h1] at hpne

/-- Concrete instance: an `urllib.Request` event whose second positional
argument (the request body, labelled with the ignore marker) carries
sensitive data never produces an extra entry with that value, in particular
not under the key the body position would otherwise get. -/
theorem ignored_positions_never_logged_witness :
    (∀ p ∈ (["url", "_", "_", "method"].zip
        [PyVal.str "https://www.python.org", PyVal.str "SENSITIVE-DATA",
         PyVal.str "SENSITIVE-DATA", PyVal.str "GET"]),
      p.2 = PyVal.str "SENSITIVE-DATA" → p.1 = "_")
    ∧ ("audit.args._", PyVal.str "SENSITIVE-DATA") ∉
        extraFor ["url", "_", "_", "method"]
          [PyVal.str "https://www.python.org", PyVal.str "SENSITIVE-DATA",
           PyVal.str "SENSITIVE-DATA", PyVal.str "GET"] :=
  ⟨by decide,
   ignored_positions_never_logged ["url", "_", "_", "method"]
     [PyVal.str "https://www.python.org", PyVal.str "SENSITIVE-DATA",
      PyVal.str "SENSITIVE-DATA", PyVal.str "GET"]
     (PyVal.str "SENSITIVE-DATA") "audit.args._" (by decide)⟩

/-- C9: an argument tuple shorter than the label list is handled by pairing
only up to the shorter length: the extra mapping equals the one built from
the truncated label list, it has at most one entry per supplied argument,
and the dispatcher completes without failure (with a succeeding sink) for
the short tuple. -/
theorem short_args_truncate (arg_names : List String) (args : List PyVal)
    (_h : args.length ≤ arg_names.length) :
    extraFor arg_names args = extraFor (arg_names.take args.length) args
    ∧ (extraFor arg_names args).length ≤ args.length
    ∧ ∀ cap st event_name,
        handle_audit_event_io (fun _ => (Except.ok () : Except String Unit))
            cap st event_name args
          = Except.ok (handle_audit_event cap st event_name args).1 := by
  refine ⟨?_, ?_, ?_⟩
  · simp only [extraFor]
    rw [← zip_names_truncates]
  · have h1 : (extraFor arg_names args).length ≤ (arg_names.zip args).length := by
      simp only [extraFor, List.length_map]
      exact List.length_filter_le _ _
    have h2 : (arg_names.zip args).length ≤ args.length := by
      rw [List.length_zip]
      exact Nat.min_le_right _ _
    exact Nat.le_trans h1 h2
  · intro cap st event_name
    exact handle_io_ok_of_sink_ok _ (fun _ => rfl) cap st event_name args

/-- C8: two dispatched events share an occurrence counter iff they agree on
name and on the textual representation of their full argument tuple: after
one fresh dispatch, a second dispatch of a recognized event is counted 2
when name and argument text both coincide, and gets an independent fresh
count of 1 otherwise. -/
theorem counter_identity_name_and_text (cap : Nat) (n1 n2 : String)
    (l1 l2 : List String) (a1 a2 : List PyVal)
    (h1 : EVENTS_TO_LOG.lookup n1 = Option.some l1)
    (h2 : EVENTS_TO_LOG.lookup n2 = Option.some l2)
    (hcap : 1 ≤ cap) :
    recCount (handle_audit_event cap
        (handle_audit_event cap [] n1 a1).1 n2 a2).2 =
      Option.some (if n1 = n2 ∧ reprTuple a1 = reprTuple a2 then 2 else 1) := by
  have hs1 : (handle_audit_event cap [] n1 a1).1 =
      [((n1, reprTuple a1), 1)] := by
    rw [handle_recognized cap [] n1 l1 a1 h1, nextCount_nil,
      lruSet_nil cap hcap]
  rw [hs1, handle_after_one cap n2 l2 a2 (n1, reprTuple a1) h2]
  by_cases hsame : n1 = n2 ∧ reprTuple a1 = reprTuple a2
  · have hkeq : (n2, reprTuple a2) = (n1, reprTuple a1) := by
      rw [hsame.1, hsame.2]
    rw [if_pos hkeq, if_pos hsame]
  · have hkne : (n2, reprTuple a2) ≠ (n1, reprTuple a1) := by
      intro he
      exact hsame ⟨(congrArg Prod.fst he).symm, (congrArg Prod.snd he).symm⟩
    rw [if_neg hkne, if_neg hsame]

/-- Concrete instance: two `open` events with different path text have
independent counters, so the second dispatch is counted 1. -/
theorem counter_identity_name_and_text_witness :
    EVENTS_TO_LOG.lookup "open" = Option.some ["path", "mode", "flags"]
    ∧ (1 : Nat) ≤ 500
    ∧ recCount (handle_audit_event 500
          (handle_audit_event 500 [] "open" [PyVal.str "/tmp/a"]).1
          "open" [PyVal.str "/tmp/b"]).2 =
        Option.some (if "open" = "open"
            ∧ reprTuple [PyVal.str "/tmp/a"] = reprTuple [PyVal.str "/tmp/b"]
          then 2 else 1) :=
  ⟨by rfl, by decide,
   counter_identity_name_and_text 500 "open" "open" ["path", "mode", "flags"]
     ["path", "mode", "flags"] [PyVal.str "/tmp/a"] [PyVal.str "/tmp/b"]
     (by rfl) (by rfl) (by decide)⟩

/-- C10: surplus trailing arguments beyond the label list never appear in
the extra mapping, yet they contribute to the event key: two recognized
events equal in name and in every labelled position but with different
argument text produce identical extra argument entries while keeping
independent counters, the second dispatch being counted 1. -/
theorem surplus_args_affect_key_not_extra (cap : Nat) (event_name : String)
    (labels : List String) (a1 a2 : List PyVal)
    (hrec : EVENTS_TO_LOG.lookup event_name = Option.some labels)
    (_hlen1 : labels.length ≤ a1.length) (_hlen2 : labels.length ≤ a2.length)
    (htake : a1.take labels.length = a2.take labels.length)
    (hrepr : reprTuple a1 ≠ reprTuple a2)
    (hcap : 1 ≤ cap) :
    extraFor labels a1 = extraFor labels a2
    ∧ recCount (handle_audit_event cap [] event_name a1).2 = Option.some 1
    ∧ recCount (handle_audit_event cap
          (handle_audit_event cap [] event_name a1).1 event_name a2).2 =
        Option.some 1 := by
  have hextra : extraFor labels a1 = extraFor labels a2 := by
    unfold extraFor
    rw [zip_args_truncates labels a1, zip_args_truncates labels a2, htake]
  have hs1 : (handle_audit_event cap [] event_name a1).1 =
      [((event_name, reprTuple a1), 1)] := by
    rw [handle_recognized cap [] event_name labels a1 hrec, nextCount_nil,
      lruSet_nil cap hcap]
  refine ⟨hextra, ?_, ?_⟩
  · rw [handle_recognized cap [] event_name labels a1 hrec, nextCount_nil]
    have hthr : throttle_suppresses 1 = false := by decide
    simp only [hthr, Bool.false_eq_true, if_false]
    simp only [recCount, count_entry_lookup]
  · have hkne : (event_name, reprTuple a2) ≠ (event_name, reprTuple a1) := by
      intro he
      exact hrepr (congrArg Prod.snd he).symm
    rw [hs1, handle_after_one cap event_name labels a2
      (event_name, reprTuple a1) hrec, if_neg hkne]

/-- Concrete instance: two `open` events sharing path, mode and flags but
differing in a fourth surplus argument have equal extra entries and
independent counters. -/
theorem surplus_args_affect_key_not_extra_witness :
    EVENTS_TO_LOG.lookup "open" = Option.some ["path", "mode", "flags"]
    ∧ (["path", "mode", "flags"] : List String).length ≤
        ([PyVal.str "/x", PyVal.str "r", PyVal.none, PyVal.int 1] : List PyVal).length
    ∧ (["path", "mode", "flags"] : List String).length ≤
        ([PyVal.str "/x", PyVal.str "r", PyVal.none, PyVal.int 2] : List PyVal).length
    ∧ ([PyVal.str "/x", PyVal.str "r", PyVal.none, PyVal.int 1] : List PyVal).take
          (["path", "mode", "flags"] : List String).length =
        ([PyVal.str "/x", PyVal.str "r", PyVal.none, PyVal.int 2] : List PyVal).take
          (["path", "mode", "flags"] : List String).length
    ∧ reprTuple [PyVal.str "/x", PyVal.str "r", PyVal.none, PyVal.int 1] ≠
        reprTuple [PyVal.str "/x", PyVal.str "r", PyVal.none, PyVal.int 2]
    ∧ (1 : Nat) ≤ 500
    ∧ (extraFor ["path", "mode", "flags"]
          [PyVal.str "/x", PyVal.str "r", PyVal.none, PyVal.int 1]
        = extraFor ["path", "mode", "flags"]
          [PyVal.str "/x", PyVal.str "r", PyVal.none, PyVal.int 2]
      ∧ recCount (handle_audit_event 500 [] "open"
          [PyVal.str "/x", PyVal.str "r", PyVal.none, PyVal.int 1]).2 = Option.some 1
      ∧ recCount (handle_audit_event 500
            (handle_audit_event 500 [] "open"
              [PyVal.str "/x", PyVal.str "r", PyVal.none, PyVal.int 1]).1
            "open" [PyVal.str "/x", PyVal.str "r", PyVal.none, PyVal.int 2]).2 =
          Option.some 1) :=
  ⟨by rfl, by decide, by decide, by decide, by decide, by decide,
   surplus_args_affect_key_not_extra 500 "open" ["path", "mode", "flags"]
     [PyVal.str "/x", PyVal.str "r", PyVal.none, PyVal.int 1]
     [PyVal.str "/x", PyVal.str "r", PyVal.none, PyVal.int 2]
     (by rfl) (by decide) (by decide) (by decide) (by decide) (by decide)⟩

/-- Concrete instance: the `os.rename` table entry has four labels, but a
two-argument tuple pairs only the first two, the extra mapping has two
entries, and dispatch succeeds. -/
theorem short_args_truncate_witness :
    [PyVal.str "/tmp/a", PyVal.str "/tmp/b"].length ≤
        ["src", "dst", "src_dir_fd", "dst_dir_fd"].length
    ∧ (extraFor ["src", "dst", "src_dir_fd", "dst_dir_fd"]
          [PyVal.str "/tmp/a", PyVal.str "/tmp/b"]
        = extraFor (["src", "dst", "src_dir_fd", "dst_dir_fd"].take
            [PyVal.str "/tmp/a", PyVal.str "/tmp/b"].length)
          [PyVal.str "/tmp/a", PyVal.str "/tmp/b"]
      ∧ (extraFor ["src", "dst", "src_dir_fd", "dst_dir_fd"]
          [PyVal.str "/tmp/a", PyVal.str "/tmp/b"]).length ≤
          [PyVal.str "/tmp/a", PyVal.str "/tmp/b"].length
      ∧ ∀ cap st event_name,
          handle_audit_event_io (fun _ => (Except.ok () : Except String Unit))
              cap st event_name [PyVal.str "/tmp/a", PyVal.str "/tmp/b"]
            = Except.ok (handle_audit_event cap st event_name
                [PyVal.str "/tmp/a", PyVal.str "/tmp/b"]).1) :=
  ⟨by decide,
   short_args_truncate ["src", "dst", "src_dir_fd", "dst_dir_fd"]
     [PyVal.str "/tmp/a", PyVal.str "/tmp/b"] (by decide)⟩

/-- Reading back the counts from a list of records built with consecutive
counts recovers exactly those counts. -/
theorem countsOf_mkRecs (event_name : String) (labels : List String)
    (args : List PyVal) :
    ∀ l : List Nat,
      countsOf (l.map (fun c => ⟨AUDIT, event_name,
          extraFor labels args ++ [("count", PyVal.int (Int.ofNat c))]⟩)) = l := by
  intro l
  induction l with
  | nil => rfl
  | cons c cs ih =>
    simp only [List.map_cons, countsOf, List.filterMap_cons]
    rw [recCount_emitted]
    simp only [countsOf] at ih
    rw [ih]

/-- Closed form of `n` sequential dispatches of one recognized event from
the empty cache: the cache holds the single key with count `n`, and the
emitted records carry exactly the counts in `[1, n]` that survive the
throttle, in increasing order. -/
theorem runSeq_closed_form (cap : Nat) (event_name : String)
    (labels : List String) (args : List PyVal)
    (hrec : EVENTS_TO_LOG.lookup event_name = Option.some labels)
    (hcap : 1 ≤ cap) :
    ∀ n, 1 ≤ n →
      runSeq cap event_name args n =
        ([((event_name, reprTuple args), n)],
         ((List.range' 1 n).filter (fun c => !throttle_suppresses c)).map
           (fun c => ⟨AUDIT, event_name,
             extraFor labels args ++ [("count", PyVal.int (Int.ofNat c))]⟩)) := by
  intro n
  induction n with
  | zero => intro h; exact absurd h (by omega)
  | succ m ih =>
    intro _
    by_cases hm : 1 ≤ m
    · have hprev := ih hm
      simp only [runSeq]
      rw [hprev]
      rw [handle_recognized cap [((event_name, reprTuple args), m)]
        event_name labels args hrec]
      rw [nextCount_single_hit, lruSet_single_same cap hcap]
      have hsplit : List.range' 1 (m + 1) = List.range' 1 m ++ [1 + 1 * m] :=
        List.range'_concat 1 m
      have h1m : 1 + 1 * m = m + 1 := by omega
      rw [h1m] at hsplit
      rw [hsplit, List.filter_append, List.map_append]
      by_cases ht : throttle_suppresses (m + 1) = true
      · simp [ht]
      · simp [ht]
    · have hm0 : m = 0 := by omega
      subst hm0
      simp only [runSeq]
      rw [handle_recognized cap [] event_name labels args hrec,
        nextCount_nil, lruSet_nil cap hcap]
      have hthr : throttle_suppresses 1 = false := by decide
      simp [hthr]

/-- The counts emitted by `n` sequential dispatches of one recognized event
are the counts in `[1, n]` that survive the throttle. -/
theorem seqCounts_closed (cap : Nat) (event_name : String)
    (labels : List String) (args : List PyVal)
    (hrec : EVENTS_TO_LOG.lookup event_name = Option.some labels)
    (hcap : 1 ≤ cap) (n : Nat) (hn : 1 ≤ n) :
    seqCounts cap event_name args n =
      (List.range' 1 n).filter (fun c => !throttle_suppresses c) := by
  unfold seqCounts
  rw [runSeq_closed_form cap event_name labels args hrec hcap n hn]
  exact countsOf_mkRecs event_name labels args _

set_option maxRecDepth 4000 in
/-- C2: for a recognized event dispatched N times in sequence (capacity at
least 1, no other events interleaved), the counts attached to the emitted
records are exactly the counts in [1, N] that are at most 10, or at most
100 and a multiple of 10, or a multiple of 100; in particular the first
dispatch of a fresh key emits exactly one record, with count 1, and 1000
dispatches emit exactly the 28 records with counts 1..10, 20..100 by tens
and 200..1000 by hundreds. -/
theorem seq_dispatch_emitted_counts (cap N : Nat) (event_name : String)
    (labels : List String) (args : List PyVal)
    (hrec : EVENTS_TO_LOG.lookup event_name = Option.some labels)
    (hcap : 1 ≤ cap) (hN : 1 ≤ N) :
    (∀ c : Nat, c ∈ seqCounts cap event_name args N ↔
      (1 ≤ c ∧ c ≤ N)
      ∧ ((1 ≤ c ∧ c ≤ 10)
         ∨ (11 ≤ c ∧ c ≤ 100 ∧ c % 10 = 0)
         ∨ (100 < c ∧ c % 100 = 0)))
    ∧ (runSeq cap event_name args 1).2.length = 1
    ∧ seqCounts cap event_name args 1 = [1]
    ∧ seqCounts cap event_name args 1000 =
        [1,2,3,4,5,6,7,8,9,10,20,30,40,50,60,70,80,90,100,
         200,300,400,500,600,700,800,900,1000] := by
  have hone : (List.range' 1 1).filter (fun c => !throttle_suppresses c) = [1] := by
    decide
  refine ⟨?_, ?_, ?_, ?_⟩
  · intro c
    rw [seqCounts_closed cap event_name labels args hrec hcap N hN]
    rw [List.mem_filter, List.mem_range'_1]
    constructor
    · rintro ⟨⟨h1, h2⟩, h3⟩
      rw [Bool.not_eq_true'] at h3
      exact ⟨⟨h1, by omega⟩, (throttle_suppresses_false_iff c h1).mp h3⟩
    · rintro ⟨⟨h1, h2⟩, h3⟩
      refine ⟨⟨h1, by omega⟩, ?_⟩
      rw [Bool.not_eq_true']
      exact (throttle_suppresses_false_iff c h1).mpr h3
  · rw [runSeq_closed_form cap event_name labels args hrec hcap 1 (by omega),
      hone]
    rfl
  · rw [seqCounts_closed cap event_name labels args hrec hcap 1 (by omega),
      hone]
  · rw [seqCounts_closed cap event_name labels args hrec hcap 1000 (by omega)]
    decide

/-- Concrete instance: 1000 dispatches of `open` on the file "/tmp/x"
opened for writing, with capacity 500, emit counts 1..10, 20..100 by tens,
200..1000 by hundreds, and the first dispatch emits one record with
count 1. -/
theorem seq_dispatch_emitted_counts_witness :
    EVENTS_TO_LOG.lookup "open" = Option.some ["path", "mode", "flags"]
    ∧ (1 : Nat) ≤ 500
    ∧ (1 : Nat) ≤ 1000
    ∧ ((∀ c : Nat,
        c ∈ seqCounts 500 "open" [PyVal.str "/tmp/x", PyVal.str "w"] 1000 ↔
          (1 ≤ c ∧ c ≤ 1000)
          ∧ ((1 ≤ c ∧ c ≤ 10)
             ∨ (11 ≤ c ∧ c ≤ 100 ∧ c % 10 = 0)
             ∨ (100 < c ∧ c % 100 = 0)))
      ∧ (runSeq 500 "open" [PyVal.str "/tmp/x", PyVal.str "w"] 1).2.length = 1
      ∧ seqCounts 500 "open" [PyVal.str "/tmp/x", PyVal.str "w"] 1 = [1]
      ∧ seqCounts 500 "open" [PyVal.str "/tmp/x", PyVal.str "w"] 1000 =
          [1,2,3,4,5,6,7,8,9,10,20,30,40,50,60,70,80,90,100,
           200,300,400,500,600,700,800,900,1000]) :=
  ⟨by rfl, by decide, by decide,
   seq_dispatch_emitted_counts 500 1000 "open" ["path", "mode", "flags"]
     [PyVal.str "/tmp/x", PyVal.str "w"] (by rfl) (by decide) (by decide)⟩
